import Mathlib

set_option maxRecDepth 20000

/-!
Shallow embedding of the Logging-plus-plus engine (src/LogHandler.cpp,
src/include/LogHandler.hpp).  Pure parts (formatting, configuration
setters, buffer operations) are translated into Lean functions on an
explicit engine-state record; the filesystem is an abstract oracle;
the worker loop is a fuel-bounded function; the init/worker startup
interleaving is a small scheduled transition system.
-/

namespace LoggingPP

/-- Modelled from the spec: the `Level` enumeration lives in
`LoggingLib.hpp`, which is not under src/; the spec fixes the order
Debug < Info < Warn < Error. -/
inductive Level where
  | Debug
  | Info
  | Warn
  | Error
deriving DecidableEq, Repr

def Level.toNat : Level → Nat
  | .Debug => 0
  | .Info => 1
  | .Warn => 2
  | .Error => 3

/-- C++ comparison `level < logLevel` on the Level enumeration. -/
def levelLt (a b : Level) : Bool := a.toNat < b.toNat

/-- Modelled from the spec: `getLogLevel` (level → display name) lives in
LoggingLib, not under src/; the spec names the levels Debug, Info, Warn,
Error and writes `<LEVEL>` at the head of each rendered line. -/
def getLogLevel : Level → String
  | .Debug => "Debug"
  | .Info => "Info"
  | .Warn => "Warn"
  | .Error => "Error"

/-- The ANSI color chosen by the `switch(level)` in
`LogHandler::formatOutput`. -/
def colorOf : Level → String
  | .Debug => "\x1b[34m"
  | .Info => "\x1b[32m"
  | .Warn => "\x1b[33m"
  | .Error => "\x1b[31m"

/-- The two C++ exception kinds thrown by LogHandler.cpp:
`std::runtime_error` (openLogStream) and `std::logic_error` (log). -/
inductive CppError where
  | runtimeError (msg : String)
  | logicError (msg : String)
deriving DecidableEq, Repr

/-- `LogHandler::OutputEntity`: the two rendered strings of one record. -/
structure OutputEntity where
  toConsole : String
  toFile : String
deriving DecidableEq, Repr

/-- `MaxMsgSize`, set to 300 by the LogHandler constructor. -/
def MaxMsgSize : Nat := 300

/-- The full line produced by the snprintf format string
`"%s -> [%s::%s::%u] %s >> %s\n"` before any buffer truncation; `%u`
renders the line number as a 32-bit unsigned value. -/
def fullLine (level : Level) (msg file func : String) (line : Nat)
    (time : String) : String :=
  getLogLevel level ++ " -> [" ++ file ++ "::" ++ func ++ "::" ++
    toString (line % 4294967296) ++ "] " ++ time ++ " >> " ++ msg ++ "\n"

/-- `snprintf(buffer, size, ...)` stores at most `size - 1` characters
plus a terminating NUL; modelled on the character list (byte and
character counts coincide on the ASCII text involved). -/
def snprintfTrunc (size : Nat) (s : String) : String :=
  String.mk (s.data.take (size - 1))

/-- `LogHandler::formatOutput`: renders the record through the
300-byte `buffer`, then prefixes the ANSI color for the console form. -/
def formatOutput (level : Level) (msg file func : String) (line : Nat)
    (time : String) : OutputEntity :=
  let color := colorOf level
  let buffer := snprintfTrunc MaxMsgSize (fullLine level msg file func line time)
  { toFile := buffer, toConsole := color ++ buffer }

/-- `LogHandler::Output`: the sink selector enumeration. -/
inductive Output where
  | FILE
  | CONSOLE
deriving DecidableEq, Repr

/-- The LogHandler object state (fields of the class in LogHandler.hpp,
as used by LogHandler.cpp), plus the observable sink outputs
(`fileOut`, `consoleOut`: the sequences of strings written by
`outputToFile` / `outputToConsole`). `workerSpawned` stands for the
`outputThread` member holding a running thread. -/
structure LState where
  isEngineReady : Bool
  isCloseEngine : Bool
  isStop : Bool
  workerSpawned : Bool
  maxBufferSize : Nat
  flushFrequency : Nat
  logDir : String
  logFile : String
  logLevel : Level
  outFILE : Bool
  outCONSOLE : Bool
  streamOpen : Bool
  currentTime : String
  logReadBuffer : List OutputEntity
  logWriteBuffer : List OutputEntity
  fileOut : List String
  consoleOut : List String
deriving DecidableEq, Repr

/-- The state established by the `LogHandler` constructor. -/
def initialState : LState :=
  { isEngineReady := false
    isCloseEngine := false
    isStop := true
    workerSpawned := false
    maxBufferSize := 50
    flushFrequency := 3
    logDir := ""
    logFile := "app.log"
    logLevel := .Info
    outFILE := true
    outCONSOLE := true
    streamOpen := false
    currentTime := ""
    logReadBuffer := []
    logWriteBuffer := []
    fileOut := []
    consoleOut := [] }

/-- Modelled from the spec: `pathToFile` (the path-splitting helper, an
external collaborator not under src/) splits a path into directory and
file name at the last separator. -/
def pathToFile (path : String) : String × String :=
  match (path.toList.reverse.takeWhile (· ≠ '/')).reverse with
  | f =>
      (String.mk (path.toList.take (path.length - f.length)), String.mk f)

/-- `LogHandler::setOutput`: no-op unless stopped; disabling FILE closes
an open stream. -/
def setOutput (o : Output) (isAllowed : Bool) (s : LState) : LState :=
  if ¬ s.isStop then s
  else
    match o with
    | .FILE =>
        let s1 := if ¬ isAllowed ∧ s.streamOpen
                  then { s with streamOpen := false } else s
        { s1 with outFILE := isAllowed }
    | .CONSOLE => { s with outCONSOLE := isAllowed }

/-- `LogHandler::setLogFile`: no-op unless stopped; closes an open
stream, re-enables the FILE sink and splits the path. -/
def setLogFile (logPath : String) (s : LState) : LState :=
  if ¬ s.isStop then s
  else
    let s1 := if s.streamOpen then { s with streamOpen := false } else s
    let s2 := { s1 with outFILE := true }
    let df := pathToFile logPath
    { s2 with logDir := df.1, logFile := df.2 }

/-- `LogHandler::setLogLevel`: no-op unless stopped. -/
def setLogLevel (level : Level) (s : LState) : LState :=
  if ¬ s.isStop then s else { s with logLevel := level }

/-- `LogHandler::setFlushFrequency`: no-op unless stopped. -/
def setFlushFrequency (fre : Nat) (s : LState) : LState :=
  if ¬ s.isStop then s else { s with flushFrequency := fre }

/-- `LogHandler::setMaxBufferSize`: no-op unless stopped. -/
def setMaxBufferSize (size : Nat) (s : LState) : LState :=
  if ¬ s.isStop then s else { s with maxBufferSize := size }

/-- Abstract filesystem oracle for the POSIX calls made by
`openLogStream`: `access(dir, F_OK)`/`access(dir, W_OK)`, `stat`,
`mkdir`, the `S_ISDIR` bit when `stat` succeeded, the bit read from the
uninitialized `struct stat` when `stat` failed but `mkdir` succeeded,
and whether `ofstream::open` succeeds. -/
structure FSModel where
  accessF : String → Bool
  accessW : String → Bool
  statOk : String → Bool
  mkdirOk : String → Bool
  isDirStat : String → Bool
  uninitDirBit : String → Bool
  openOk : String → Bool

/-- One directory-component check of the `openLogStream` loop body:
`stat`, on failure `mkdir` (throwing `"Cannot create directory"` if that
fails too), then the `S_ISDIR(fileStat.st_mode)` test (reading the
uninitialized `fileStat` when `stat` had failed), throwing
`"Directory error"` when it is not set. -/
def checkDir (fs : FSModel) (dir : String) : Except CppError Unit :=
  if fs.statOk dir then
    if fs.isDirStat dir then .ok ()
    else .error (.runtimeError "Directory error")
  else
    if fs.mkdirOk dir then
      if fs.uninitDirBit dir then .ok ()
      else .error (.runtimeError "Directory error")
    else .error (.runtimeError "Cannot create directory")

/-- The index loop of `openLogStream`: at a `'/'` the prefix before it
is checked, at the last index the whole `logDir` is checked, other
indices `continue`. -/
def createDirsGo (fs : FSModel) (logDir : String) :
    List Nat → Except CppError Unit
  | [] => .ok ()
  | idx :: rest =>
      if logDir.toList.getD idx ' ' = '/' then do
        checkDir fs (String.mk (logDir.toList.take idx))
        createDirsGo fs logDir rest
      else if idx + 1 = logDir.length then do
        checkDir fs logDir
        createDirsGo fs logDir rest
      else createDirsGo fs logDir rest

def createDirs (fs : FSModel) (logDir : String) : Except CppError Unit :=
  createDirsGo fs logDir (List.range logDir.length)

/-- Modelled from the spec: `dirAndFileToPath` (external collaborator
not under src/) joins directory and file name into one path. -/
def dirAndFileToPath (dir file : String) : String := dir ++ "/" ++ file

/-- `LogHandler::openLogStream`: closes an open stream, creates missing
directories (throwing on failure), then opens the log file in append
mode; a failing `ofstream::open` raises nothing (failbit only). -/
def openLogStream (fs : FSModel) (s : LState) : Except CppError LState :=
  let s0 := if s.streamOpen then { s with streamOpen := false } else s
  let path := dirAndFileToPath s0.logDir s0.logFile
  if fs.accessF s0.logDir ∧ fs.accessW s0.logDir then
    .ok { s0 with streamOpen := fs.openOk path }
  else
    match createDirs fs s0.logDir with
    | .error e => .error e
    | .ok () => .ok { s0 with streamOpen := fs.openOk path }

/-- `LogHandler::init`: starts the worker thread, then (under `logMtx`)
sets `isStop := false`, refreshes the cached time (`now` stands for the
wall clock), and opens the stream when the FILE sink is enabled.  A
thrown exception propagates to the caller; the `.error` case carries the
object state at the throw point.  This function gives the body's
behaviour when the thread assignment of the first statement succeeds,
i.e. when `outputThread` holds no joinable thread; the abort raised by
that assignment on a still-joinable thread is modelled by `initCall`. -/
def init (fs : FSModel) (now : String) (s : LState) :
    Except (CppError × LState) LState :=
  let s1 := { s with workerSpawned := true }
  let s2 := { s1 with isStop := false, currentTime := now }
  if s2.outFILE then
    match openLogStream fs s2 with
    | .error e => .error (e, s2)
    | .ok s3 => .ok s3
  else .ok s2

/-- The outcome of one call to `LogHandler::init`, the process-abort
path included. -/
inductive InitOutcome where
  | ok (s : LState)
  | thrown (e : CppError) (s : LState)
  | terminated
deriving DecidableEq, Repr

/-- A call to `LogHandler::init` with the `std::thread` assignment
semantics of its first statement: when `outputThread` already holds a
joinable thread (a previous `init` with no intervening shutdown), the
move assignment `outputThread = std::thread(...)` calls
`std::terminate`, aborting the process before any engine state changes;
otherwise the body runs as `init`. -/
def initCall (fs : FSModel) (now : String) (s : LState) : InitOutcome :=
  if s.workerSpawned then .terminated
  else
    match init fs now s with
    | .ok s' => .ok s'
    | .error (e, s') => .thrown e s'

/-- `LogHandler::log`: drops records below `logLevel` before any other
check, formats, then under `logMtx` throws `std::logic_error` when
stopped, else appends (`push_back`) to the read buffer and notifies the
worker when `size() >= maxBufferSize`.  The returned `Bool` records
whether `logCV.notify_one()` was called. -/
def log (level : Level) (msg file func : String) (line : Nat)
    (s : LState) : Except CppError (LState × Bool) :=
  if levelLt level s.logLevel then .ok (s, false)
  else
    let entry := formatOutput level msg file func line s.currentTime
    if s.isStop then
      .error (.logicError "logging handler haven\x27t been inited")
    else
      let rb := s.logReadBuffer ++ [entry]
      .ok ({ s with logReadBuffer := rb }, decide (rb.length ≥ s.maxBufferSize))

/-- `logWriteBuffer.swap(logReadBuffer)`: O(1) role exchange of the two
deques. -/
def swapBuffers (s : LState) : LState :=
  { s with logReadBuffer := s.logWriteBuffer,
           logWriteBuffer := s.logReadBuffer }

/-- One iteration of the worker's drain loop body: write the front
record's console form (if the CONSOLE sink is enabled) and file form
(if the FILE sink is enabled). -/
def drainStep (e : OutputEntity) (s : LState) : LState :=
  let s1 := if s.outCONSOLE
            then { s with consoleOut := s.consoleOut ++ [e.toConsole] }
            else s
  if s1.outFILE
  then { s1 with fileOut := s1.fileOut ++ [e.toFile] }
  else s1

/-- The worker's `while(!logWriteBuffer.empty())` drain: front, output,
pop_front, in FIFO order. -/
def drainList : List OutputEntity → LState → LState
  | [], s => s
  | e :: rest, s => drainList rest (drainStep e { s with logWriteBuffer := rest })

/-- One full drain of the write buffer (the flush of the stream at the
end of the cycle adds no observable write). -/
def drainAll (s : LState) : LState := drainList s.logWriteBuffer s

/-- The worker loop from the point the destructor has set
`isCloseEngine` and producers are quiescent, fuel-bounded: with an empty
write buffer the wait returns (timeout), the buffers are swapped and —
this being the close path — the worker exits (`exit(0)`) only when the
post-swap write buffer is empty; otherwise it drains and loops. `none`
means the fuel ran out before the exit. -/
def workerClose : Nat → LState → Option LState
  | 0, _ => none
  | fuel + 1, s =>
      if s.logWriteBuffer.isEmpty then
        let s1 := swapBuffers s
        if s1.logWriteBuffer.isEmpty then some s1
        else workerClose fuel (drainAll s1)
      else workerClose fuel (drainAll s)

/-- A producer/worker interleaving event: a completed buffer append
inside `log` (`push_back` under `logMtx`), or one worker wake cycle
(swap under the lock, then drain outside it). -/
inductive Ev where
  | app (e : OutputEntity)
  | cycle
deriving DecidableEq, Repr

def stepEv (s : LState) : Ev → LState
  | .app e => { s with logReadBuffer := s.logReadBuffer ++ [e] }
  | .cycle => drainAll (swapBuffers s)

def runEvents (evs : List Ev) (s : LState) : LState := evs.foldl stepEv s

/-- The records appended over an event trace, in append order. -/
def appendsOf (evs : List Ev) : List OutputEntity :=
  evs.filterMap fun ev => match ev with
    | .app e => some e
    | .cycle => none

/-- A running engine with both sinks enabled and empty buffers. -/
def runningState : LState :=
  { initialState with isStop := false, streamOpen := true,
                      workerSpawned := true }

/-- `n` successive calls of `log` with the same arguments; the returned
`Bool` is true when any of the calls notified the worker. -/
def logTimes (level : Level) (msg file func : String) (line : Nat) :
    Nat → LState → Except CppError (LState × Bool)
  | 0, s => .ok (s, false)
  | n + 1, s =>
      match log level msg file func line s with
      | .error e => .error e
      | .ok (s1, b) =>
          match logTimes level msg file func line n s1 with
          | .error e => .error e
          | .ok (s2, b2) => .ok (s2, b || b2)

/-- Thread identifiers of the startup interleaving: the thread calling
`init()` and the spawned worker thread. -/
inductive Tid where
  | main
  | worker
deriving DecidableEq, Repr

/-- Startup-interleaving state: `initPC = 0` before the spawn, `1` after
the spawn with the body of `init` still to run, `2` after `init`
returned; `workerAnnounced` records that the worker has executed its
announce-ready block. -/
structure CState where
  isEngineReady : Bool
  isStop : Bool
  workerSpawned : Bool
  initPC : Nat
  workerAnnounced : Bool
deriving DecidableEq, Repr

/-- One scheduled step.  `main` at pc 0 runs
`outputThread = std::thread(...)`; at pc 1 it runs the rest of the body
of `init` — lock `logMtx`, `isStop = false`, `freshCurrentTime`,
`openLogStream` — and returns: no statement of `init` reads or waits on
`isEngineReady`.  A `worker` step (only available once spawned) runs the
announce-ready block at the top of `outputEngine`: set `isEngineReady`
under `engineMtx` and notify `engineCV`. -/
def cstep (s : CState) : Tid → CState
  | .main =>
      match s.initPC with
      | 0 => { s with workerSpawned := true, initPC := 1 }
      | 1 => { s with isStop := false, initPC := 2 }
      | _ => s
  | .worker =>
      if s.workerSpawned ∧ ¬ s.workerAnnounced then
        { s with isEngineReady := true, workerAnnounced := true }
      else s

def crun (sched : List Tid) (s : CState) : CState := sched.foldl cstep s

/-- The startup state as the constructor leaves it. -/
def cinit : CState :=
  { isEngineReady := false, isStop := true, workerSpawned := false,
    initPC := 0, workerAnnounced := false }

/-- The destructor's handshake, `while(!isEngineReady)
engineCV.wait(engineLck)`: each wait releases `engineMtx`, letting the
worker run its announce block; the loop only terminates with
`isEngineReady` set.  Fuel-bounded; `none` means the fuel ran out. -/
def dtorWait : Nat → CState → Option CState
  | 0, s => if s.isEngineReady then some s else none
  | fuel + 1, s =>
      if s.isEngineReady then some s
      else dtorWait fuel (cstep s .worker)

/-- A filesystem in which every call succeeds. -/
def goodFS : FSModel :=
  { accessF := fun _ => true
    accessW := fun _ => true
    statOk := fun _ => true
    mkdirOk := fun _ => true
    isDirStat := fun _ => true
    uninitDirBit := fun _ => true
    openOk := fun _ => true }

/-- A filesystem in which the log directory is absent and `mkdir`
fails. -/
def badFS : FSModel :=
  { accessF := fun _ => false
    accessW := fun _ => false
    statOk := fun _ => false
    mkdirOk := fun _ => false
    isDirStat := fun _ => true
    uninitDirBit := fun _ => true
    openOk := fun _ => false }

/-- A 300-character message, long enough to overflow the snprintf
buffer. -/
def longMsg : String := String.mk (List.replicate 300 'a')

/- ------------------------------------------------------------------
Helper lemmas about the drain loop.
------------------------------------------------------------------ -/

theorem drainStep_fields (e : OutputEntity) (s : LState) :
    (drainStep e s).logReadBuffer = s.logReadBuffer ∧
    (drainStep e s).logWriteBuffer = s.logWriteBuffer ∧
    (drainStep e s).outFILE = s.outFILE ∧
    (drainStep e s).outCONSOLE = s.outCONSOLE ∧
    (drainStep e s).fileOut
      = s.fileOut ++ (if s.outFILE then [e.toFile] else []) ∧
    (drainStep e s).consoleOut
      = s.consoleOut ++ (if s.outCONSOLE then [e.toConsole] else []) := by
  unfold drainStep
  by_cases h1 : s.outCONSOLE <;> by_cases h2 : s.outFILE <;> simp [h1, h2]

theorem drainList_fields : ∀ (l : List OutputEntity) (s : LState),
    (drainList l s).logReadBuffer = s.logReadBuffer ∧
    (drainList l s).logWriteBuffer
      = (if l = [] then s.logWriteBuffer else []) ∧
    (drainList l s).outFILE = s.outFILE ∧
    (drainList l s).outCONSOLE = s.outCONSOLE ∧
    (drainList l s).fileOut
      = s.fileOut ++ (if s.outFILE then l.map (·.toFile) else []) ∧
    (drainList l s).consoleOut
      = s.consoleOut ++ (if s.outCONSOLE then l.map (·.toConsole) else [])
  | [], s => by simp [drainList]
  | e :: rest, s => by
    have hstep := drainStep_fields e { s with logWriteBuffer := rest }
    have hrec := drainList_fields rest (drainStep e { s with logWriteBuffer := rest })
    obtain ⟨r1, r2, r3, r4, r5, r6⟩ := hrec
    obtain ⟨q1, q2, q3, q4, q5, q6⟩ := hstep
    refine ⟨?_, ?_, ?_, ?_, ?_, ?_⟩ <;>
      simp only [drainList, r1, r2, r3, r4, r5, r6, q1, q2, q3, q4, q5, q6]
    · rcases h : rest with _ | ⟨x, xs⟩ <;> simp [h]
    · by_cases hf : s.outFILE <;> simp [hf]
    · by_cases hc : s.outCONSOLE <;> simp [hc]

theorem drainAll_fields (s : LState) :
    (drainAll s).logReadBuffer = s.logReadBuffer ∧
    (drainAll s).logWriteBuffer = [] ∧
    (drainAll s).outFILE = s.outFILE ∧
    (drainAll s).outCONSOLE = s.outCONSOLE ∧
    (drainAll s).fileOut
      = s.fileOut ++ (if s.outFILE then s.logWriteBuffer.map (·.toFile) else []) ∧
    (drainAll s).consoleOut
      = s.consoleOut
        ++ (if s.outCONSOLE then s.logWriteBuffer.map (·.toConsole) else []) := by
  have h := drainList_fields s.logWriteBuffer s
  obtain ⟨h1, h2, h3, h4, h5, h6⟩ := h
  refine ⟨h1, ?_, h3, h4, h5, h6⟩
  rcases hl : s.logWriteBuffer with _ | ⟨x, xs⟩ <;> simp [drainAll, hl] at h2 ⊢
  · simpa [drainAll, hl] using h2
  · simpa [drainAll, hl] using h2

theorem swapBuffers_write (s : LState) :
    (swapBuffers s).logWriteBuffer = s.logReadBuffer := rfl

theorem swapBuffers_read (s : LState) :
    (swapBuffers s).logReadBuffer = s.logWriteBuffer := rfl

theorem swapBuffers_fileOut (s : LState) :
    (swapBuffers s).fileOut = s.fileOut := rfl

theorem swapBuffers_consoleOut (s : LState) :
    (swapBuffers s).consoleOut = s.consoleOut := rfl

theorem swapBuffers_outFILE (s : LState) :
    (swapBuffers s).outFILE = s.outFILE := rfl

theorem swapBuffers_outCONSOLE (s : LState) :
    (swapBuffers s).outCONSOLE = s.outCONSOLE := rfl

theorem workerClose_succ (fuel : Nat) (s : LState) :
    workerClose (fuel + 1) s =
      if s.logWriteBuffer.isEmpty then
        (if (swapBuffers s).logWriteBuffer.isEmpty then some (swapBuffers s)
         else workerClose fuel (drainAll (swapBuffers s)))
      else workerClose fuel (drainAll s) := rfl

/-- Whenever the close-path worker loop exits, both buffers are empty
and the contents of the write buffer followed by the read buffer have
been written, in order, to each enabled sink. -/
theorem workerClose_sound : ∀ (fuel : Nat) (s s' : LState),
    workerClose fuel s = some s' →
    s'.logReadBuffer = [] ∧ s'.logWriteBuffer = [] ∧
    s'.fileOut = s.fileOut
      ++ (if s.outFILE
          then (s.logWriteBuffer ++ s.logReadBuffer).map (·.toFile) else []) ∧
    s'.consoleOut = s.consoleOut
      ++ (if s.outCONSOLE
          then (s.logWriteBuffer ++ s.logReadBuffer).map (·.toConsole) else [])
  | 0, s, s', h => by simp [workerClose] at h
  | fuel + 1, s, s', h => by
    rw [workerClose_succ] at h
    by_cases hw : s.logWriteBuffer.isEmpty
    · rw [if_pos hw] at h
      have hwb : s.logWriteBuffer = [] := by
        simpa [List.isEmpty_iff] using hw
      by_cases hr : (swapBuffers s).logWriteBuffer.isEmpty
      · rw [if_pos hr] at h
        have hrb : s.logReadBuffer = [] := by
          simpa [swapBuffers, List.isEmpty_iff] using hr
        obtain rfl : swapBuffers s = s' := Option.some_injective _ h
        refine ⟨?_, ?_, ?_, ?_⟩ <;> simp [swapBuffers, hwb, hrb]
      · rw [if_neg hr] at h
        have hrec := workerClose_sound fuel _ s' h
        obtain ⟨r1, r2, r3, r4⟩ := hrec
        have hd := drainAll_fields (swapBuffers s)
        obtain ⟨d1, d2, d3, d4, d5, d6⟩ := hd
        refine ⟨r1, r2, ?_, ?_⟩
        · rw [r3, d5, d3, d2, d1]
          simp [swapBuffers, hwb]
        · rw [r4, d6, d4, d2, d1]
          simp [swapBuffers, hwb]
    · rw [if_neg hw] at h
      have hrec := workerClose_sound fuel _ s' h
      obtain ⟨r1, r2, r3, r4⟩ := hrec
      have hd := drainAll_fields s
      obtain ⟨d1, d2, d3, d4, d5, d6⟩ := hd
      refine ⟨r1, r2, ?_, ?_⟩
      · rw [r3, d5, d3, d2, d1]
        by_cases hf : s.outFILE <;> simp [hf]
      · rw [r4, d6, d4, d2, d1]
        by_cases hc : s.outCONSOLE <;> simp [hc]

/-- Three wake cycles always suffice for the close-path worker loop to
reach its exit. -/
theorem workerClose_total (s : LState) : ∃ s', workerClose 3 s = some s' := by
  have h3 : (3 : Nat) = 2 + 1 := rfl
  have h2 : (2 : Nat) = 1 + 1 := rfl
  have h1 : (1 : Nat) = 0 + 1 := rfl
  by_cases hw : s.logWriteBuffer.isEmpty
  · by_cases hr : (swapBuffers s).logWriteBuffer.isEmpty
    · exact ⟨swapBuffers s, by rw [h3, workerClose_succ, if_pos hw, if_pos hr]⟩
    · -- drain the swapped-in read buffer, then exit on the next cycle
      have hd := drainAll_fields (swapBuffers s)
      obtain ⟨d1, d2, d3, d4, d5, d6⟩ := hd
      have hw2 : (drainAll (swapBuffers s)).logWriteBuffer.isEmpty := by
        simp [d2]
      have hr2 : (swapBuffers (drainAll (swapBuffers s))).logWriteBuffer.isEmpty := by
        have hre : (drainAll (swapBuffers s)).logReadBuffer = [] := by
          rw [d1, swapBuffers_read]
          simpa [List.isEmpty_iff] using hw
        rw [swapBuffers_write, hre]
        rfl
      refine ⟨swapBuffers (drainAll (swapBuffers s)), ?_⟩
      rw [h3, workerClose_succ, if_pos hw, if_neg hr,
          h2, workerClose_succ, if_pos hw2, if_pos hr2]
  · have hd := drainAll_fields s
    obtain ⟨d1, d2, d3, d4, d5, d6⟩ := hd
    have hw2 : (drainAll s).logWriteBuffer.isEmpty := by simp [d2]
    by_cases hr : (swapBuffers (drainAll s)).logWriteBuffer.isEmpty
    · refine ⟨swapBuffers (drainAll s), ?_⟩
      rw [h3, workerClose_succ, if_neg hw, h2, workerClose_succ,
          if_pos hw2, if_pos hr]
    · have hd2 := drainAll_fields (swapBuffers (drainAll s))
      obtain ⟨e1, e2, e3, e4, e5, e6⟩ := hd2
      have hw3 : (drainAll (swapBuffers (drainAll s))).logWriteBuffer.isEmpty := by
        simp [e2]
      have hr3 :
          (swapBuffers (drainAll (swapBuffers (drainAll s)))).logWriteBuffer.isEmpty := by
        have hre : (drainAll (swapBuffers (drainAll s))).logReadBuffer = [] := by
          rw [e1, swapBuffers_read, d2]
        rw [swapBuffers_write, hre]
        rfl
      refine ⟨swapBuffers (drainAll (swapBuffers (drainAll s))), ?_⟩
      rw [h3, workerClose_succ, if_neg hw, h2, workerClose_succ,
          if_pos hw2, if_neg hr, h1, workerClose_succ, if_pos hw3, if_pos hr3]

/- ------------------------------------------------------------------
Helper lemmas about producer/worker event traces.
------------------------------------------------------------------ -/

/-- Trace invariant: over any interleaving of appends and wake cycles
starting from an empty write buffer, the write buffer stays empty
between events, the sink flags are stable, and the sink output followed
by the pending read buffer lists exactly the appended records in append
order. -/
theorem runEvents_inv : ∀ (evs : List Ev) (s : LState),
    s.logWriteBuffer = [] →
    (runEvents evs s).logWriteBuffer = [] ∧
    (runEvents evs s).outFILE = s.outFILE ∧
    (runEvents evs s).outCONSOLE = s.outCONSOLE ∧
    (runEvents evs s).fileOut
        ++ (if s.outFILE
            then (runEvents evs s).logReadBuffer.map (·.toFile) else [])
      = s.fileOut
        ++ (if s.outFILE
            then (s.logReadBuffer ++ appendsOf evs).map (·.toFile) else []) ∧
    (runEvents evs s).consoleOut
        ++ (if s.outCONSOLE
            then (runEvents evs s).logReadBuffer.map (·.toConsole) else [])
      = s.consoleOut
        ++ (if s.outCONSOLE
            then (s.logReadBuffer ++ appendsOf evs).map (·.toConsole) else [])
  | [], s, h => by simp [runEvents, appendsOf, h]
  | .app e :: rest, s, h => by
    have hrec := runEvents_inv rest { s with logReadBuffer := s.logReadBuffer ++ [e] } h
    obtain ⟨r1, r2, r3, r4, r5⟩ := hrec
    have hgoal : runEvents (.app e :: rest) s
        = runEvents rest { s with logReadBuffer := s.logReadBuffer ++ [e] } := rfl
    rw [hgoal]
    refine ⟨r1, r2, r3, ?_, ?_⟩
    · rw [r4]
      simp [appendsOf]
    · rw [r5]
      simp [appendsOf]
  | .cycle :: rest, s, h => by
    have hd := drainAll_fields (swapBuffers s)
    obtain ⟨d1, d2, d3, d4, d5, d6⟩ := hd
    have hrec := runEvents_inv rest (drainAll (swapBuffers s)) d2
    obtain ⟨r1, r2, r3, r4, r5⟩ := hrec
    have hgoal : runEvents (.cycle :: rest) s
        = runEvents rest (drainAll (swapBuffers s)) := rfl
    rw [hgoal]
    have hro : (drainAll (swapBuffers s)).outFILE = s.outFILE := d3
    have hrc : (drainAll (swapBuffers s)).outCONSOLE = s.outCONSOLE := d4
    have happ : appendsOf (Ev.cycle :: rest) = appendsOf rest := by
      simp [appendsOf]
    refine ⟨r1, by rw [r2, hro], by rw [r3, hrc], ?_, ?_⟩
    · rw [happ, ← hro, r4, d5, d1, swapBuffers_write, swapBuffers_read, h,
          swapBuffers_fileOut, d3, swapBuffers_outFILE]
      by_cases hf : s.outFILE <;> simp [hf]
    · rw [happ, ← hrc, r5, d6, d1, swapBuffers_write, swapBuffers_read, h,
          swapBuffers_consoleOut, d4, swapBuffers_outCONSOLE]
      by_cases hc : s.outCONSOLE <;> simp [hc]

/- ------------------------------------------------------------------
Helper lemma about repeated log calls and the threshold signal.
------------------------------------------------------------------ -/

/-- On a running engine with a passing level, `n` log calls append `n`
records and the worker gets notified exactly when some append reached
the threshold, i.e. when `n ≥ 1` and the final size reaches
`maxBufferSize`. -/
theorem logTimes_signal : ∀ (n : Nat) (lv : Level) (msg file func : String)
    (line : Nat) (s : LState),
    s.isStop = false → levelLt lv s.logLevel = false →
    ∃ s2, logTimes lv msg file func line n s
        = .ok (s2, decide (1 ≤ n ∧ s.maxBufferSize ≤ s.logReadBuffer.length + n)) ∧
      s2.isStop = s.isStop ∧ s2.logLevel = s.logLevel ∧
      s2.maxBufferSize = s.maxBufferSize ∧
      s2.logReadBuffer.length = s.logReadBuffer.length + n
  | 0, lv, msg, file, func, line, s, h1, h2 => by
    refine ⟨s, ?_, rfl, rfl, rfl, rfl⟩
    simp [logTimes]
  | n + 1, lv, msg, file, func, line, s, h1, h2 => by
    set e := formatOutput lv msg file func line s.currentTime with he
    have hlog : log lv msg file func line s
        = .ok ({ s with logReadBuffer := s.logReadBuffer ++ [e] },
               decide (s.maxBufferSize ≤ (s.logReadBuffer ++ [e]).length)) := by
      rw [log]
      rw [if_neg (by rw [h2]; exact Bool.false_ne_true), if_neg (by rw [h1]; exact Bool.false_ne_true)]
    have hrec := logTimes_signal n lv msg file func line
        { s with logReadBuffer := s.logReadBuffer ++ [e] } h1 h2
    obtain ⟨s2, q1, q2, q3, q4, q5⟩ := hrec
    dsimp only at q1 q2 q3 q4 q5
    have hb : (decide (s.maxBufferSize ≤ (s.logReadBuffer ++ [e]).length)
          || decide (1 ≤ n ∧ s.maxBufferSize
                ≤ (s.logReadBuffer ++ [e]).length + n))
        = decide (1 ≤ n + 1 ∧ s.maxBufferSize ≤ s.logReadBuffer.length + (n + 1)) := by
      rw [← Bool.decide_or, decide_eq_decide]
      simp only [List.length_append, List.length_cons, List.length_nil]
      omega
    refine ⟨s2, ?_, q2, q3, q4, ?_⟩
    · rw [logTimes, hlog]
      dsimp only
      rw [q1]
      dsimp only
      rw [hb]
    · rw [q5]
      simp only [List.length_append, List.length_cons, List.length_nil]
      omega

/- ------------------------------------------------------------------
Helper lemmas about the startup interleaving and strings.
------------------------------------------------------------------ -/

theorem cstep_main_ready (s : CState) :
    (cstep s .main).isEngineReady = s.isEngineReady := by
  unfold cstep
  split
  · split <;> rfl
  · contradiction

theorem crun_main_only : ∀ (sched : List Tid) (s : CState),
    (∀ t ∈ sched, t = Tid.main) →
    (crun sched s).isEngineReady = s.isEngineReady
  | [], _, _ => rfl
  | t :: rest, s, h => by
    have ht : t = Tid.main := h t (List.mem_cons_self t rest)
    subst ht
    have hstep : crun (Tid.main :: rest) s = crun rest (cstep s .main) := rfl
    rw [hstep,
        crun_main_only rest _ (fun u hu => h u (List.mem_cons_of_mem _ hu)),
        cstep_main_ready]

theorem dtorWait_ready : ∀ (fuel : Nat) (s s' : CState),
    dtorWait fuel s = some s' → s'.isEngineReady = true
  | 0, s, s', h => by
    by_cases hr : s.isEngineReady
    · unfold dtorWait at h
      rw [if_pos hr] at h
      cases h
      exact hr
    · unfold dtorWait at h
      rw [if_neg hr] at h
      cases h
  | fuel + 1, s, s', h => by
    by_cases hr : s.isEngineReady
    · unfold dtorWait at h
      rw [if_pos hr] at h
      cases h
      exact hr
    · unfold dtorWait at h
      rw [if_neg hr] at h
      exact dtorWait_ready fuel _ s' h

theorem string_mk_data (s : String) : String.mk s.data = s := by
  cases s
  rfl

theorem string_data_length (s : String) : s.data.length = s.length := by
  cases s
  rfl

/-- The snprintf format string ends in `\n`, so the untruncated line is
newline-terminated. -/
theorem fullLine_newline (lv : Level) (msg file func : String) (line : Nat)
    (time : String) :
    (fullLine lv msg file func line time).data.getLast? = some '\n' := by
  unfold fullLine
  rw [String.data_append]
  have hnl : ("\n" : String).data = ['\n'] := rfl
  rw [hnl, List.getLast?_concat]

/- ------------------------------------------------------------------
The claims.
------------------------------------------------------------------ -/

/-- C1 (counterexample): the schedule that runs both steps of `init()`
before the spawned worker thread runs at all is a valid execution: in
its final state `init()` has returned (`initPC = 2`) while
`isEngineReady` is still false, so `init()` does not block until the
worker has announced readiness. -/
theorem c1_counterexample :
    (crun [Tid.main, Tid.main] cinit).initPC = 2 ∧
    (crun [Tid.main, Tid.main] cinit).isEngineReady = false := by
  decide

/-- C1 (amended): `init()` performs no readiness handshake at all — no
schedule consisting only of `init()` steps can make the engine-ready
flag true (init neither waits for it nor sets it); the handshake the
spec describes is instead performed by the destructor, whose
`while(!isEngineReady) wait` loop returns only once the worker has set
the flag. -/
theorem c1_amended :
    (∀ sched : List Tid, (∀ t ∈ sched, t = Tid.main) →
      (crun sched cinit).isEngineReady = false) ∧
    (∀ (fuel : Nat) (s s' : CState), dtorWait fuel s = some s' →
      s'.isEngineReady = true) := by
  constructor
  · intro sched hsched
    rw [crun_main_only sched cinit hsched]
    rfl
  · exact dtorWait_ready

/-- C1 (witness): the amended facts at concrete inputs: a two-step
main-only schedule leaves the ready flag false, and a destructor wait
that returns with one worker step yields a ready state. -/
theorem c1_witness :
    (crun [Tid.main, Tid.main] cinit).isEngineReady = false ∧
    ({ cinit with
        workerSpawned := true,
        isEngineReady := true,
        workerAnnounced := true } : CState).isEngineReady = true :=
  ⟨c1_amended.1 [Tid.main, Tid.main] (by decide),
   c1_amended.2 1 { cinit with workerSpawned := true }
     { cinit with
        workerSpawned := true,
        isEngineReady := true,
        workerAnnounced := true } rfl⟩

/-- C2 (counterexample): on an all-succeeding filesystem, a first
`init()` from the constructor state succeeds, and a second `init()`
without an intervening shutdown aborts the process (`std::terminate`
from the thread move assignment) rather than failing with a
`ConfigurationError` reported synchronously to the caller. -/
theorem c2_counterexample :
    ∃ s1, initCall goodFS "t0" initialState = .ok s1 ∧
      initCall goodFS "t1" s1 = .terminated :=
  ⟨_, rfl, rfl⟩

/-- C2 (amended): `init()` has no double-init guard and reports no
`ConfigurationError`: whenever the worker thread of a previous `init`
is still alive, a second call aborts the whole process via
`std::terminate` at its first statement — the move assignment to the
still-joinable `outputThread` member — before touching any engine
state. -/
theorem c2_amended (fs : FSModel) (now : String) (s : LState)
    (h : s.workerSpawned = true) : initCall fs now s = .terminated := by
  simp [initCall, h]

/-- C2 (witness): the amended fact at the concrete state a first
`init()` leaves behind. -/
theorem c2_witness :
    initCall goodFS "t1"
      { initialState with
         workerSpawned := true,
         isStop := false,
         currentTime := "t0",
         streamOpen := true } = .terminated :=
  c2_amended goodFS "t1"
    { initialState with
       workerSpawned := true,
       isStop := false,
       currentTime := "t0",
       streamOpen := true } rfl

/-- C3 (counterexample): a `log` call below the configured minimum
level, issued before `init()` (engine stopped, default level Info),
returns silently instead of failing: the level filter runs before the
lifecycle check. -/
theorem c3_counterexample :
    log .Debug "msg" "file.cpp" "func" 7 initialState
      = .ok (initialState, false) := rfl

/-- C3 (amended): only for levels passing the configured minimum does a
`log` call before `init()` throw `std::logic_error` ("logging handler
haven't been inited"); calls below the minimum level return silently
even on an uninitialized engine. -/
theorem c3_amended (lv : Level) (msg file func : String) (line : Nat)
    (s : LState) (hlevel : levelLt lv s.logLevel = false)
    (hstop : s.isStop = true) :
    log lv msg file func line s
      = .error (.logicError "logging handler haven\x27t been inited") := by
  simp [log, hlevel, hstop]

/-- C3 (witness): an Error-level call on the stopped constructor state
does throw the lifecycle error. -/
theorem c3_witness :
    log .Error "msg" "file.cpp" "func" 7 initialState
      = .error (.logicError "logging handler haven\x27t been inited") :=
  c3_amended .Error "msg" "file.cpp" "func" 7 initialState rfl rfl

/-- C4 (counterexample): starting from the stopped constructor state
with `logDir = "log"` on a filesystem where `mkdir` fails, `init()`
surfaces the `"Cannot create directory"` error — but the state at the
throw already has `isStop = false`: the engine did transition out of its
prior stopped state. -/
theorem c4_counterexample :
    ({ initialState with logDir := "log" } : LState).isStop = true ∧
    ∃ s', init badFS "t" { initialState with logDir := "log" }
        = .error (.runtimeError "Cannot create directory", s') ∧
      s'.isStop = false :=
  ⟨rfl, _, rfl, rfl⟩

/-- C4 (amended): an `init()` failure is surfaced synchronously to the
caller, but the engine's lifecycle state is not unchanged: `isStop` is
set to false before the stream is opened, so every failing `init()`
leaves the engine in the running state. -/
theorem c4_amended (fs : FSModel) (now : String) (s : LState)
    (e : CppError) (s' : LState)
    (h : init fs now s = .error (e, s')) : s'.isStop = false := by
  unfold init at h
  dsimp only at h
  split at h
  · split at h
    · injection h with h'
      injection h' with he hs
      rw [← hs]
    · cases h
  · cases h

/-- C4 (witness): the amended fact at the concrete failing input. -/
theorem c4_witness :
    ({ initialState with
        logDir := "log",
        workerSpawned := true,
        isStop := false,
        currentTime := "t" } : LState).isStop = false :=
  c4_amended badFS "t" { initialState with logDir := "log" }
    (.runtimeError "Cannot create directory")
    { initialState with
       logDir := "log",
       workerSpawned := true,
       isStop := false,
       currentTime := "t" } rfl

/-- C5: while the engine is running (`isStop = false`), every
configuration operation — `setOutput`, `setLogFile`, `setLogLevel`,
`setFlushFrequency`, `setMaxBufferSize` — is a silent no-op: it raises
nothing and returns the state completely unchanged. -/
theorem c5_config_frozen (s : LState) (h : s.isStop = false) (o : Output)
    (b : Bool) (p : String) (lv : Level) (n m : Nat) :
    setOutput o b s = s ∧ setLogFile p s = s ∧ setLogLevel lv s = s ∧
    setFlushFrequency n s = s ∧ setMaxBufferSize m s = s := by
  refine ⟨?_, ?_, ?_, ?_, ?_⟩ <;>
    simp [setOutput, setLogFile, setLogLevel, setFlushFrequency,
          setMaxBufferSize, h]

/-- C5 (witness): concrete no-op reconfiguration attempts on a running
engine. -/
theorem c5_witness :
    setOutput .CONSOLE false runningState = runningState ∧
    setLogFile "x/y.log" runningState = runningState ∧
    setLogLevel .Debug runningState = runningState ∧
    setFlushFrequency 1 runningState = runningState ∧
    setMaxBufferSize 2 runningState = runningState :=
  c5_config_frozen runningState rfl .CONSOLE false "x/y.log" .Debug 1 2

/-- C6: once teardown is in progress, the worker exits only when the
post-swap write buffer is empty; it always reaches that exit (within
three wake cycles), both buffers are then empty, and with the file sink
enabled every record that was buffered when teardown began has been
written, in order, to the file sink — no records are dropped on
shutdown. -/
theorem c6_no_drop_on_shutdown (s : LState) (hf : s.outFILE = true) :
    ∃ s', workerClose 3 s = some s' ∧
      s'.logReadBuffer = [] ∧ s'.logWriteBuffer = [] ∧
      s'.fileOut = s.fileOut
        ++ (s.logWriteBuffer ++ s.logReadBuffer).map (·.toFile) := by
  obtain ⟨s', h⟩ := workerClose_total s
  obtain ⟨h1, h2, h3, h4⟩ := workerClose_sound 3 s s' h
  refine ⟨s', h, h1, h2, ?_⟩
  rw [h3, hf]
  simp

/-- C6 (witness): a concrete teardown with one record still in each
buffer drains both, in order, into the file output. -/
theorem c6_witness :
    ∃ s', workerClose 3
        { runningState with
           logReadBuffer := [⟨"c1", "f1"⟩],
           logWriteBuffer := [⟨"c0", "f0"⟩] } = some s' ∧
      s'.logReadBuffer = [] ∧ s'.logWriteBuffer = [] ∧
      s'.fileOut = ({ runningState with
           logReadBuffer := [⟨"c1", "f1"⟩],
           logWriteBuffer := [⟨"c0", "f0"⟩] } : LState).fileOut
        ++ ((({ runningState with
           logReadBuffer := [⟨"c1", "f1"⟩],
           logWriteBuffer := [⟨"c0", "f0"⟩] } : LState).logWriteBuffer
          ++ ({ runningState with
           logReadBuffer := [⟨"c1", "f1"⟩],
           logWriteBuffer := [⟨"c0", "f0"⟩] } : LState).logReadBuffer).map
            (·.toFile)) :=
  c6_no_drop_on_shutdown
    { runningState with
       logReadBuffer := [⟨"c1", "f1"⟩],
       logWriteBuffer := [⟨"c0", "f0"⟩] } rfl

/-- C7: over any interleaving of producer appends and worker wake
cycles on a running engine with both sinks enabled, followed by the
shutdown drain, each sink receives exactly the appended records'
renderings in append (FIFO) order: push_back, swap and
front-then-pop_front draining preserve the order end to end. -/
theorem c7_fifo_order (evs : List Ev) :
    ∃ s', workerClose 3 (runEvents evs runningState) = some s' ∧
      s'.fileOut = (appendsOf evs).map (·.toFile) ∧
      s'.consoleOut = (appendsOf evs).map (·.toConsole) := by
  obtain ⟨i1, i2, i3, i4, i5⟩ := runEvents_inv evs runningState rfl
  obtain ⟨s', h⟩ := workerClose_total (runEvents evs runningState)
  obtain ⟨h1, h2, h3, h4⟩ := workerClose_sound 3 _ s' h
  have hfT : runningState.outFILE = true := rfl
  have hcT : runningState.outCONSOLE = true := rfl
  rw [hfT] at i4
  rw [hcT] at i5
  simp only [if_true] at i4 i5
  refine ⟨s', h, ?_, ?_⟩
  · rw [h3, i1, i2, hfT]
    simp only [if_true, List.nil_append]
    have : runningState.fileOut = [] := rfl
    rw [this] at i4
    have hrb : runningState.logReadBuffer = [] := rfl
    rw [hrb] at i4
    simpa using i4
  · rw [h4, i1, i3, hcT]
    simp only [if_true, List.nil_append]
    have : runningState.consoleOut = [] := rfl
    rw [this] at i5
    have hrb : runningState.logReadBuffer = [] := rfl
    rw [hrb] at i5
    simpa using i5

/-- C8: on a running engine whose read buffer is empty and whose
threshold is `T ≥ 1` (the flush period never being consulted by `log`),
issuing `T` passing log calls makes some append notify the worker —
the `T`-th, whose push_back reaches the threshold — while issuing only
`T - 1` calls notifies nobody. -/
theorem c8_threshold_signal (T : Nat) (lv : Level) (msg file func : String)
    (line : Nat) (s : LState) (hT : 1 ≤ T) (hrun : s.isStop = false)
    (hlev : levelLt lv s.logLevel = false) (hemp : s.logReadBuffer = [])
    (hmax : s.maxBufferSize = T) :
    (∃ sT, logTimes lv msg file func line T s = .ok (sT, true)) ∧
    (∃ sT, logTimes lv msg file func line (T - 1) s = .ok (sT, false)) := by
  obtain ⟨s2, q1, _, _, _, _⟩ := logTimes_signal T lv msg file func line s hrun hlev
  obtain ⟨s3, r1, _, _, _, _⟩ :=
    logTimes_signal (T - 1) lv msg file func line s hrun hlev
  rw [hemp, hmax] at q1 r1
  constructor
  · refine ⟨s2, ?_⟩
    rw [q1, decide_eq_true (show 1 ≤ T ∧ T ≤ List.length [] + T by
      exact ⟨hT, by simp⟩)]
  · refine ⟨s3, ?_⟩
    rw [r1, decide_eq_false (show ¬(1 ≤ T - 1 ∧ T ≤ List.length [] + (T - 1)) by
      simp only [List.length_nil]
      omega)]

/-- C8 (witness): with threshold 2, two log calls signal the worker and
a single call does not. -/
theorem c8_witness :
    (∃ sT, logTimes .Info "m" "f.cpp" "fn" 1 2
        { runningState with maxBufferSize := 2 } = .ok (sT, true)) ∧
    (∃ sT, logTimes .Info "m" "f.cpp" "fn" 1 (2 - 1)
        { runningState with maxBufferSize := 2 } = .ok (sT, false)) :=
  c8_threshold_signal 2 .Info "m" "f.cpp" "fn" 1
    { runningState with maxBufferSize := 2 }
    (by decide) rfl rfl rfl rfl

/-- C9 (counterexample): a 300-character message overflows the
300-byte snprintf buffer: the stored file form is the truncated line —
not the full `<LEVEL> -> [...] ... >> msg\n` rendering — and it has lost
its terminating newline. -/
theorem c9_counterexample :
    (formatOutput .Info longMsg "f.cpp" "fn" 7 "T").toFile.data.getLast?
        ≠ some '\n' ∧
    (formatOutput .Info longMsg "f.cpp" "fn" 7 "T").toFile
        ≠ fullLine .Info longMsg "f.cpp" "fn" 7 "T" := by
  constructor <;> decide

/-- C9 (amended): whenever the formatted line fits the 300-byte buffer
(length at most 299), the file form is exactly the newline-terminated
line `<LEVEL> -> [<file>::<func>::<line>] <time> >> <msg>\n` and the
console form is the same content prefixed with the level's ANSI color
(Debug=blue 34, Info=green 32, Warn=yellow 33, Error=red 31); longer
lines are silently truncated by the buffer. -/
theorem c9_amended (lv : Level) (msg file func : String) (line : Nat)
    (time : String)
    (hfit : (fullLine lv msg file func line time).length ≤ MaxMsgSize - 1) :
    (formatOutput lv msg file func line time).toFile
        = fullLine lv msg file func line time ∧
    (formatOutput lv msg file func line time).toConsole
        = colorOf lv ++ fullLine lv msg file func line time ∧
    (fullLine lv msg file func line time).data.getLast? = some '\n' ∧
    colorOf .Debug = "\x1b[34m" ∧ colorOf .Info = "\x1b[32m" ∧
    colorOf .Warn = "\x1b[33m" ∧ colorOf .Error = "\x1b[31m" := by
  have htake : (fullLine lv msg file func line time).data.take (MaxMsgSize - 1)
      = (fullLine lv msg file func line time).data :=
    List.take_of_length_le (by
      rw [string_data_length]
      exact hfit)
  have hfile : (formatOutput lv msg file func line time).toFile
      = fullLine lv msg file func line time := by
    show String.mk ((fullLine lv msg file func line time).data.take (MaxMsgSize - 1))
        = fullLine lv msg file func line time
    rw [htake, string_mk_data]
  have hcons : (formatOutput lv msg file func line time).toConsole
      = colorOf lv ++ fullLine lv msg file func line time := by
    show colorOf lv
        ++ String.mk ((fullLine lv msg file func line time).data.take (MaxMsgSize - 1))
        = colorOf lv ++ fullLine lv msg file func line time
    rw [htake, string_mk_data]
  exact ⟨hfile, hcons, fullLine_newline lv msg file func line time,
         rfl, rfl, rfl, rfl⟩

/-- C9 (witness): the amended rendering facts at a concrete short
record. -/
theorem c9_witness :
    (formatOutput .Info "hello" "f.cpp" "fn" 7 "T").toFile
        = fullLine .Info "hello" "f.cpp" "fn" 7 "T" ∧
    (formatOutput .Info "hello" "f.cpp" "fn" 7 "T").toConsole
        = colorOf .Info ++ fullLine .Info "hello" "f.cpp" "fn" 7 "T" ∧
    (fullLine .Info "hello" "f.cpp" "fn" 7 "T").data.getLast? = some '\n' ∧
    colorOf .Debug = "\x1b[34m" ∧ colorOf .Info = "\x1b[32m" ∧
    colorOf .Warn = "\x1b[33m" ∧ colorOf .Error = "\x1b[31m" :=
  c9_amended .Info "hello" "f.cpp" "fn" 7 "T" (by decide)

/-- C10 (counterexample): the console form is not bounded by 300 bytes:
for a 300-character message it is 304 characters long (5-byte color
prefix plus the 299-character truncated buffer), exceeding the claimed
bound even before the NUL. -/
theorem c10_counterexample :
    300 < (formatOutput .Info longMsg "f.cpp" "fn" 7 "T").toConsole.length := by
  decide

/-- C10 (amended): the file form is bounded by the 300-byte snprintf
buffer (at most 299 characters plus NUL) and a line longer than that is
silently truncated to exactly 299 characters, no longer equal to the
full rendering; the console form is the color prefix prepended to the
same truncated buffer, hence bounded by 304 characters, not 300. -/
theorem c10_amended (lv : Level) (msg file func : String) (line : Nat)
    (time : String) :
    (formatOutput lv msg file func line time).toFile.length ≤ MaxMsgSize - 1 ∧
    (formatOutput lv msg file func line time).toConsole.length ≤ MaxMsgSize + 4 ∧
    (formatOutput lv msg file func line time).toConsole
        = colorOf lv ++ (formatOutput lv msg file func line time).toFile ∧
    (MaxMsgSize - 1 < (fullLine lv msg file func line time).length →
      (formatOutput lv msg file func line time).toFile
          ≠ fullLine lv msg file func line time ∧
      (formatOutput lv msg file func line time).toFile.length = MaxMsgSize - 1) := by
  have hlen : (formatOutput lv msg file func line time).toFile.length
      = min (MaxMsgSize - 1) (fullLine lv msg file func line time).length := by
    show (String.mk ((fullLine lv msg file func line time).data.take (MaxMsgSize - 1))).length
        = min (MaxMsgSize - 1) (fullLine lv msg file func line time).length
    show ((fullLine lv msg file func line time).data.take (MaxMsgSize - 1)).length
        = min (MaxMsgSize - 1) (fullLine lv msg file func line time).length
    rw [List.length_take, string_data_length]
  have hcolor : (colorOf lv).length = 5 := by
    cases lv <;> rfl
  have hconsEq : (formatOutput lv msg file func line time).toConsole
      = colorOf lv ++ (formatOutput lv msg file func line time).toFile := rfl
  refine ⟨?_, ?_, hconsEq, ?_⟩
  · rw [hlen]
    exact Nat.min_le_left _ _
  · rw [hconsEq, String.length_append, hcolor, hlen]
    have hm : MaxMsgSize = 300 := rfl
    rw [hm]
    have hminle := Nat.min_le_left 299
        (fullLine lv msg file func line time).length
    omega
  · intro hgt
    have hm : MaxMsgSize = 300 := rfl
    have hlen299 : (formatOutput lv msg file func line time).toFile.length
        = MaxMsgSize - 1 := by
      rw [hlen, hm]
      rw [hm] at hgt
      omega
    refine ⟨?_, hlen299⟩
    intro heq
    rw [heq] at hlen299
    omega

/-- C10 (witness): the amended bounds at a concrete over-long record,
with the truncation branch actually taken. -/
theorem c10_witness :
    (formatOutput .Info longMsg "f.cpp" "fn" 7 "T").toFile.length
        ≤ MaxMsgSize - 1 ∧
    (formatOutput .Info longMsg "f.cpp" "fn" 7 "T").toConsole.length
        ≤ MaxMsgSize + 4 ∧
    (formatOutput .Info longMsg "f.cpp" "fn" 7 "T").toConsole
        = colorOf .Info ++ (formatOutput .Info longMsg "f.cpp" "fn" 7 "T").toFile ∧
    ((formatOutput .Info longMsg "f.cpp" "fn" 7 "T").toFile
        ≠ fullLine .Info longMsg "f.cpp" "fn" 7 "T" ∧
     (formatOutput .Info longMsg "f.cpp" "fn" 7 "T").toFile.length
        = MaxMsgSize - 1) := by
  have h := c10_amended .Info longMsg "f.cpp" "fn" 7 "T"
  exact ⟨h.1, h.2.1, h.2.2.1, h.2.2.2 (by decide)⟩

end LoggingPP
